import Mathlib

/-!
# Verification of `bytecode_tracer.py`

A shallow embedding of the bytecode tracer: a CPython-2 value-stack decoder
(`ValueStack`), a line-number-table rewriter (`rewrite_lnotab`) and the
call-event state machine (`BytecodeTracer.trace`).

Modelling conventions:
* CPython code objects become the inductive `Code`; constant pools may contain
  nested code objects, Python `None`, or opaque other constants (`Const`).
* Python byte strings become `List Nat`; Python exceptions become explicit
  `Except PyExc` / `Option` results (`.error` models an uncaught exception).
* Mutation of a function's `func_code` attribute is modelled by returning the
  updated function value; assigning a non-code object to `func_code` raises
  `TypeError` in CPython, modelled as `none`.
-/

namespace BytecodeHack

mutual
/-- CPython code object (`types.CodeType`), field order as in the
`CodeType(...)` constructor call of `rewrite_lnotab`. -/
inductive Code where
| mk : Nat → Nat → Nat → Nat → List Nat → List Const → List String →
       List String → String → String → Nat → List Nat → List String →
       List String → Code

/-- An entry of a code object's constant pool: a nested code object,
Python `None`, or some other constant (opaque, identified by a tag). -/
inductive Const where
| code : Code → Const
| noneC : Const
| other : Nat → Const
end

def Code.co_argcount : Code → Nat
| .mk a _ _ _ _ _ _ _ _ _ _ _ _ _ => a

def Code.co_nlocals : Code → Nat
| .mk _ a _ _ _ _ _ _ _ _ _ _ _ _ => a

def Code.co_stacksize : Code → Nat
| .mk _ _ a _ _ _ _ _ _ _ _ _ _ _ => a

def Code.co_flags : Code → Nat
| .mk _ _ _ a _ _ _ _ _ _ _ _ _ _ => a

def Code.co_code : Code → List Nat
| .mk _ _ _ _ a _ _ _ _ _ _ _ _ _ => a

def Code.co_consts : Code → List Const
| .mk _ _ _ _ _ a _ _ _ _ _ _ _ _ => a

def Code.co_names : Code → List String
| .mk _ _ _ _ _ _ a _ _ _ _ _ _ _ => a

def Code.co_varnames : Code → List String
| .mk _ _ _ _ _ _ _ a _ _ _ _ _ _ => a

def Code.co_filename : Code → String
| .mk _ _ _ _ _ _ _ _ a _ _ _ _ _ => a

def Code.co_name : Code → String
| .mk _ _ _ _ _ _ _ _ _ a _ _ _ _ => a

def Code.co_firstlineno : Code → Nat
| .mk _ _ _ _ _ _ _ _ _ _ a _ _ _ => a

def Code.co_lnotab : Code → List Nat
| .mk _ _ _ _ _ _ _ _ _ _ _ a _ _ => a

def Code.co_freevars : Code → List String
| .mk _ _ _ _ _ _ _ _ _ _ _ _ a _ => a

def Code.co_cellvars : Code → List String
| .mk _ _ _ _ _ _ _ _ _ _ _ _ _ a => a

/-- `re.match(r"\A(\x01\x01)+\Z", lnotab)` succeeds exactly when the byte
string is a nonempty, even-length run of `\x01` bytes. -/
def lnotabIsMarker (l : List Nat) : Bool :=
  !l.isEmpty && l.length % 2 == 0 && l.all (· == 1)

/-- `has_been_rewritten(code)`: the line-number table already encodes
"every instruction is a new line". -/
def has_been_rewritten (code : Code) : Bool :=
  lnotabIsMarker code.co_lnotab

mutual
/-- `rewrite_lnotab(code)`: on an already-rewritten block the Python function
executes a bare `return`, i.e. returns `None` (modelled `none`); otherwise it
returns a new code object with the marker line-number table, `co_firstlineno`
set to `0`, nested code constants rewritten, and all other fields copied. -/
def rewrite_lnotab : Code → Option Code
| .mk argc nloc stk flg cod consts names vars fn nm _fl _lno free cell =>
  if lnotabIsMarker _lno then
    none
  else
    some (.mk argc nloc stk flg cod (rewriteConsts consts) names vars fn nm
      0 (List.replicate (2 * (cod.length - 1)) 1) free cell)

/-- The `for const in code.co_consts` loop body of `rewrite_lnotab`. -/
def rewriteConsts : List Const → List Const
| [] => []
| k :: rest => rewriteConst k :: rewriteConsts rest

/-- One constant-pool entry: `type(const) is CodeType` recurses (appending
whatever `rewrite_lnotab` returned, possibly Python `None`); anything else is
appended unchanged. -/
def rewriteConst : Const → Const
| .code c =>
  match rewrite_lnotab c with
  | some c2 => .code c2
  | none => .noneC
| k => k
end

/-- A sample not-yet-rewritten code object (4 bytecode bytes). -/
def sampleCode : Code :=
  .mk 0 1 2 64 [100, 0, 0, 83] [.noneC] [] ["x"] "sample.py" "f" 3 [0, 1] [] []

/-- Runtime values that may appear on a frame's operand stack.  Interpreted
functions (`function`, which have a `func_code` attribute) carry their code
object; native callables (`builtin`) do not.  `obj` models miscellaneous
non-callable runtime objects such as iterators or exception-handler
sentinels. -/
inductive Value where
| int : Int → Value
| str : String → Value
| noneV : Value
| tuple : List Value → Value
| dict : List (Value × Value) → Value
| function : Code → Value
| builtin : String → Value
| obj : String → Value

/-- Python's `callable(...)` on the values of this model: only functions and
builtins are callable. -/
def pyCallable : Value → Bool
| .function _ => true
| .builtin _ => true
| _ => false

mutual
/-- Structural equality on code objects (used to compare function values). -/
def beqCode : Code → Code → Bool
| .mk a1 a2 a3 a4 a5 a6 a7 a8 a9 a10 a11 a12 a13 a14,
  .mk b1 b2 b3 b4 b5 b6 b7 b8 b9 b10 b11 b12 b13 b14 =>
  a1 == b1 && a2 == b2 && a3 == b3 && a4 == b4 && a5 == b5 &&
  beqConstList a6 b6 && a7 == b7 && a8 == b8 && a9 == b9 && a10 == b10 &&
  a11 == b11 && a12 == b12 && a13 == b13 && a14 == b14

/-- Structural equality on constant pools. -/
def beqConstList : List Const → List Const → Bool
| [], [] => true
| x :: xs, y :: ys => beqConst x y && beqConstList xs ys
| _, _ => false

/-- Structural equality on constant-pool entries. -/
def beqConst : Const → Const → Bool
| .code c, .code d => beqCode c d
| .noneC, .noneC => true
| .other a, .other b => a == b
| _, _ => false
end

mutual
/-- Python `==` on values, modelled as structural equality (identical objects
are represented by structurally identical values; function objects compare by
their code, the model's stand-in for object identity). -/
def pyEq : Value → Value → Bool
| .int a, .int b => a == b
| .str a, .str b => a == b
| .noneV, .noneV => true
| .tuple xs, .tuple ys => pyEqList xs ys
| .dict xs, .dict ys => pyEqPairs xs ys
| .function c, .function d => beqCode c d
| .builtin a, .builtin b => a == b
| .obj a, .obj b => a == b
| _, _ => false

/-- Elementwise `pyEq` on value lists. -/
def pyEqList : List Value → List Value → Bool
| [], [] => true
| x :: xs, y :: ys => pyEq x y && pyEqList xs ys
| _, _ => false

/-- Elementwise `pyEq` on key/value pair lists. -/
def pyEqPairs : List (Value × Value) → List (Value × Value) → Bool
| [], [] => true
| (k1, v1) :: xs, (k2, v2) :: ys => pyEq k1 k2 && pyEq v1 v2 && pyEqPairs xs ys
| _, _ => false
end

/-- `is_c_func(func)`: true iff the object has no `func_code` attribute,
i.e. it is not an interpreted function. -/
def is_c_func : Value → Bool
| .function _ => false
| _ => true

/-- Elements obtained by iterating a Python value (used by `list.extend` for
`*varargs` and nothing else): tuples yield their elements, strings their
one-character substrings, dictionaries their keys; other values are not
iterable (`none` models the `TypeError`). -/
def iterElems : Value → Option (List Value)
| .tuple xs => some xs
| .str s => some (s.toList.map fun c => .str (String.mk [c]))
| .dict ps => some (ps.map Prod.fst)
| _ => none

/-- `d[k] = v` on a Python dict modelled as an insertion-ordered association
list: overwriting keeps the original key object and position. -/
def dictInsert (d : List (Value × Value)) (k v : Value) : List (Value × Value) :=
  if d.any (fun p => pyEq p.1 k) then
    d.map fun p => if pyEq p.1 k then (p.1, v) else p
  else
    d ++ [(k, v)]

/-- `d.update(e)`: insert every entry of `e`, in order, into `d`. -/
def dictUpdate (d e : List (Value × Value)) : List (Value × Value) :=
  e.foldl (fun acc p => dictInsert acc p.1 p.2) d

/-- `d.get(k)` / `d[k]` lookup. -/
def dictLookup (d : List (Value × Value)) (k : Value) : Option Value :=
  (d.find? fun p => pyEq p.1 k).map Prod.snd

/-- `alist[::2]`: the elements at even indices. -/
def listEvens : List Value → List Value
| [] => []
| [x] => [x]
| x :: _ :: rest => x :: listEvens rest

/-- `alist[1::2]`: the elements at odd indices. -/
def listOdds : List Value → List Value
| [] => []
| [_] => []
| _ :: y :: rest => y :: listOdds rest

/-- `flatlist_to_dict(alist)` = `dict(zip(alist[::2], alist[1::2]))`:
pairs are inserted left to right, so a later duplicate key wins. -/
def flatlist_to_dict (alist : List Value) : List (Value × Value) :=
  dictUpdate [] ((listEvens alist).zip (listOdds alist))

/-- Whether the first character list leads (is an initial segment of)
the second. -/
def charsLead : List Char → List Char → Bool
| [], _ => true
| _ :: _, [] => false
| a :: as, b :: bs => a == b && charsLead as bs

/-- Python `s.startswith(pat)`. -/
def pyStartsWith (s pat : String) : Bool :=
  charsLead pat.toList s.toList

/-- Python `pat in s` substring containment. -/
def pyContains (s pat : String) : Bool :=
  (List.range (s.toList.length + 1)).any fun i =>
    charsLead pat.toList (s.toList.drop i)

/-- Python exceptions this code can raise (modelled explicitly; an `.error`
result stands for an uncaught exception propagating out of the tracer). -/
inductive PyExc where
| typeError : PyExc
| indexError : PyExc
deriving DecidableEq

/-- A frame as far as the tracer reads it: its code object, the index of the
instruction about to execute (`f_lasti`), and the operand stack, bottom first
(the external primitive `get_value_stack`). -/
structure Frame where
  f_code : Code
  f_lasti : Nat
  value_stack : List Value

/-- The external primitive `get_value_stack(frame)`. -/
def get_value_stack (frame : Frame) : List Value := frame.value_stack

/-- The slice of Python 2.6's `opcode.opname` table this program consults.
These are exactly the opcodes whose names begin with `CALL_FUNCTION` or
`PRINT_`; every other opcode's name begins with neither. -/
def opname (b : Nat) : String :=
  if b = 70 then "PRINT_EXPR"
  else if b = 71 then "PRINT_ITEM"
  else if b = 72 then "PRINT_NEWLINE"
  else if b = 73 then "PRINT_ITEM_TO"
  else if b = 74 then "PRINT_NEWLINE_TO"
  else if b = 131 then "CALL_FUNCTION"
  else if b = 140 then "CALL_FUNCTION_VAR"
  else if b = 141 then "CALL_FUNCTION_KW"
  else if b = 142 then "CALL_FUNCTION_VAR_KW"
  else if b = 83 then "RETURN_VALUE"
  else if b = 1 then "POP_TOP"
  else "OTHER_OPCODE"

/-- `unpack_CALL_FUNCTION(frame)`: reads the opcode byte at `f_lasti` and, for
a `CALL_FUNCTION*` opcode, the two following argument bytes.  `.ok none`
models the function's implicit `return None` on a non-call opcode; `.error`
models an `IndexError` from reading past the end of the bytecode. -/
def unpack_CALL_FUNCTION (frame : Frame) : Except PyExc (Option (String × Nat × Nat)) :=
  match (frame.f_code.co_code.drop frame.f_lasti) with
  | [] => .error .indexError
  | b0 :: rest =>
    let name := opname b0
    if pyStartsWith name "CALL_FUNCTION" then
      match rest with
      | b1 :: b2 :: _ => .ok (some (name, b1, b2))
      | _ => .error .indexError
    else .ok none

/-- `current_bytecode(frame)`: the mnemonic of the opcode at `f_lasti`. -/
def current_bytecode (frame : Frame) : Option String :=
  (frame.f_code.co_code.get? frame.f_lasti).map opname

/-- The fields a fully-initialised `ValueStack` object holds. -/
structure ValueStack where
  stack : List Value
  positional_args_count : Nat
  keyword_args_count : Nat
  args_count : Nat
  singlestar : Bool
  doublestar : Bool
  offset : Nat
  args_start : Nat

/-- `ValueStack.__init__`.  The `try` block unpacks the call descriptor; on a
non-call opcode `unpack_CALL_FUNCTION` returns `None` and the tuple unpacking
raises `TypeError`, which the `except ValueError` clause does NOT catch, so
construction fails with an uncaught `TypeError`.  `stack[0]` on an empty
operand stack raises `IndexError`. -/
def mkValueStack (frame : Frame) : Except PyExc ValueStack :=
  let stack := get_value_stack frame
  match unpack_CALL_FUNCTION frame with
  | .error e => .error e
  | .ok none => .error .typeError
  | .ok (some (bcode, pos, kw)) =>
    match stack with
    | [] => .error .indexError
    | s0 :: _ =>
      let offset := if pyCallable s0 then 0 else 1
      .ok { stack := stack
            positional_args_count := pos
            keyword_args_count := kw
            args_count := pos + 2 * kw
            singlestar := pyContains bcode "_VAR"
            doublestar := pyContains bcode "_KW"
            offset := offset
            args_start := offset + 1 }

/-- `bottom()`: the first interesting object at the value stack
(`self.stack[self.offset]`; `none` models an `IndexError`). -/
def ValueStack.bottom (vs : ValueStack) : Option Value :=
  vs.stack.get? vs.offset

/-- `positional_args_from_stack()`: the slice
`stack[args_start : args_start + positional_args_count]`. -/
def ValueStack.positional_args_from_stack (vs : ValueStack) : List Value :=
  (vs.stack.drop vs.args_start).take vs.positional_args_count

/-- `stack_above_args(offset)`: the single slot
`stack[args_start + args_count + offset]`. -/
def ValueStack.stack_above_args (vs : ValueStack) (off : Nat) : Option Value :=
  vs.stack.get? (vs.args_start + vs.args_count + off)

/-- `positional_args_from_varargs()`: the iterable placed on the stack
as `*args`. -/
def ValueStack.positional_args_from_varargs (vs : ValueStack) : Option Value :=
  vs.stack_above_args 0

/-- `positional_args()`: the explicit positional slots, extended with the
elements of the `*varargs` iterable when the single-star flag is set. -/
def ValueStack.positional_args (vs : ValueStack) : Except PyExc (List Value) :=
  let args := vs.positional_args_from_stack
  if vs.singlestar then
    match vs.positional_args_from_varargs with
    | none => .error .indexError
    | some v =>
      match iterElems v with
      | some elems => .ok (args ++ elems)
      | none => .error .typeError
  else .ok args

/-- `keyword_args_from_stack()`: the explicit key/value slots, interpreted as
alternating name, value. -/
def ValueStack.keyword_args_from_stack (vs : ValueStack) : List (Value × Value) :=
  flatlist_to_dict
    ((vs.stack.drop (vs.args_start + vs.positional_args_count)).take
      (2 * vs.keyword_args_count))

/-- `keyword_args_from_double_star()`: the `**kwds` mapping, one slot above
the explicit arguments, or two when `*varargs` is also present. -/
def ValueStack.keyword_args_from_double_star (vs : ValueStack) : Option Value :=
  if vs.singlestar then vs.stack_above_args 1 else vs.stack_above_args 0

/-- `keyword_args()`: the explicit keyword mapping, updated with the entries
of the `**kwds` mapping when the double-star flag is set. -/
def ValueStack.keyword_args (vs : ValueStack) : Except PyExc (List (Value × Value)) :=
  let kwds := vs.keyword_args_from_stack
  if vs.doublestar then
    match vs.keyword_args_from_double_star with
    | none => .error .indexError
    | some (.dict d) => .ok (dictUpdate kwds d)
    | some _ => .error .typeError
  else .ok kwds

/-- The frame of §8's worked example: descriptor `positional-count=2`,
`keyword-count=1`, `*varargs` present, `**kwargs` absent
(`CALL_FUNCTION_VAR` with argument bytes `2, 1`), operand stack
`[f, p1, p2, "k", v, (p3, p4)]`. -/
def exampleFrame : Frame :=
  { f_code := .mk 0 0 6 64 [140, 2, 1] [] [] [] "s.py" "m" 1 [0, 1] [] []
    f_lasti := 0
    value_stack := [.builtin "f", .int 1, .int 2, .str "k", .int 5,
                    .tuple [.int 3, .int 4]] }

/-- `rewrite_function(function)`: assigns
`function.func_code = rewrite_lnotab(function.func_code)`.  When
`rewrite_lnotab` returns Python `None` (already-rewritten block), CPython's
`func_code` setter raises `TypeError`, modelled as `none`; `none` is also
returned for objects without a `func_code` attribute (`AttributeError`). -/
def rewrite_function : Value → Option Value
| .function c =>
  match rewrite_lnotab c with
  | some c2 => some (.function c2)
  | none => none
| _ => none

/-- `rewrite_all(objects)`: rewrites every object carrying a `func_code`
attribute, skipping the rest.  Returns the updated function objects in order,
or `none` if any single rewrite raises. -/
def rewrite_all : List Value → Option (List Value)
| [] => some []
| v :: rest =>
  match v with
  | .function c =>
    match rewrite_function (.function c) with
    | some v2 => (rewrite_all rest).map (v2 :: ·)
    | none => none
  | _ => rewrite_all rest

/-- The classified events `BytecodeTracer.trace` can return:
`('c_call', (function, pargs, kargs))`, `('c_return', value)` and
`('print', None)`. -/
inductive PyEvent where
| c_call : Value → List Value → List (Value × Value) → PyEvent
| c_return : Value → PyEvent
| print_stmt : PyEvent

/-- One `trace` invocation's outcome: the classified event (or nothing), the
updated pending-call stack (head = top; Python appends/pops at the list's
end), and the function objects whose `func_code` the call mutated. -/
structure TraceResult where
  event : Option PyEvent
  call_stack : List (Option Nat)
  rewritten : List Value

/-- The call-instruction branch of `BytecodeTracer.trace`: resolve the callee
via the value stack; interpreted callees are rewritten and produce no event;
native callees produce `c_call` and push the known return-slot offset.
(The source appends the offset before extracting arguments; on an extraction
error the exception propagates and the model reports only the error.) -/
def traceCallInstr (call_stack : List (Option Nat)) (frame : Frame) :
    Except PyExc TraceResult :=
  match mkValueStack frame with
  | .error e => .error e
  | .ok vs =>
    match vs.bottom with
    | none => .error .indexError
    | some f =>
      if is_c_func f = false then
        match rewrite_function f with
        | some f2 => .ok ⟨none, call_stack, [f2]⟩
        | none => .error .typeError
      else
        match vs.positional_args with
        | .error e => .error e
        | .ok pargs =>
          match vs.keyword_args with
          | .error e => .error e
          | .ok kargs =>
            match rewrite_all (pargs ++ kargs.map Prod.snd) with
            | none => .error .typeError
            | some rw =>
              .ok ⟨some (.c_call f pargs kargs), some vs.offset :: call_stack, rw⟩

/-- The `event == 'line'` branch of `BytecodeTracer.trace`: classify the
current instruction. -/
def traceLine (call_stack : List (Option Nat)) (frame : Frame) :
    Except PyExc TraceResult :=
  match current_bytecode frame with
  | none => .error .indexError
  | some bcode =>
    if pyStartsWith bcode "CALL_FUNCTION" then
      traceCallInstr call_stack frame
    else
      match call_stack with
      | [] => .error .indexError
      | some off :: rest =>
        match (get_value_stack frame).get? off with
        | some v => .ok ⟨some (.c_return v), rest, []⟩
        | none => .error .indexError
      | none :: _ =>
        if pyStartsWith bcode "PRINT_" then
          .ok ⟨some .print_stmt, call_stack, []⟩
        else
          .ok ⟨none, call_stack, []⟩

/-- `BytecodeTracer.trace(frame, event)`.  The pending-call stack is written
head-first (head = most recent entry); `.error .indexError` models the
uncaught `IndexError` of reading or popping an empty Python list. -/
def trace (call_stack : List (Option Nat)) (frame : Frame) (event : String) :
    Except PyExc TraceResult :=
  if event = "line" then
    traceLine call_stack frame
  else if event = "call" then
    .ok ⟨none, none :: call_stack, []⟩
  else if event = "exception" then
    match call_stack with
    | [] => .error .indexError
    | some _ :: rest => .ok ⟨none, rest, []⟩
    | none :: _ => .ok ⟨none, call_stack, []⟩
  else if event = "return" then
    match call_stack with
    | [] => .error .indexError
    | _ :: rest => .ok ⟨none, rest, []⟩
  else
    .ok ⟨none, call_stack, []⟩

/-- Run `trace` over a scripted sequence of `(frame, event)` notifications,
threading the pending-call stack. -/
def traceRun (call_stack : List (Option Nat)) :
    List (Frame × String) → Except PyExc (List (Option Nat))
| [] => .ok call_stack
| (frame, ev) :: rest =>
  match trace call_stack frame ev with
  | .error e => .error e
  | .ok r => traceRun r.call_stack rest

/-!
## Ground-truth call nesting

To state the pending-call-stack invariant we model, independently of the
tracer, the true call-nesting state an interpreter produces while delivering
notifications: a stack of boundaries, one per interpreted frame currently
entered and not yet exited (`.interp`) and one per native call currently in
progress (`.native k`, where `k` is the stack slot its return value will
occupy).  A notification sequence is *well-formed* when it can arise from
such an execution:

* `call` enters an interpreted frame; `return` exits the innermost boundary,
  which must be an interpreted frame;
* a `line` notification means the interpreter is executing an instruction, so
  it requires an open frame, and if the innermost boundary is a native call
  that call has necessarily completed by now (the interpreter has resumed):
  the boundary closes, and its return value must be readable at its recorded
  slot;
* a `line` notification at a call-family instruction whose frame data lets
  the callee and arguments be resolved opens a native boundary (native
  callee) or leaves the nesting unchanged (interpreted callee — the `call`
  notification of the new frame follows separately);
* an `exception` notification closes the innermost boundary when it is a
  native call (a native call that raises produces no further notification of
  its own) and changes nothing when it is an interpreted frame (the frame's
  `return` notification still follows).

`ghostStep strict` additionally rejects (when `strict = true`) sequences in
which a call-family instruction is reached while a native call is still
pending, i.e. when two call instructions execute back to back. -/

/-- One open boundary of the true call nesting. -/
inductive GtEntry where
| interp : GtEntry
| native : Nat → GtEntry
deriving DecidableEq

/-- The pending-call-stack entry the tracer is expected to hold for a
boundary. -/
def GtEntry.marker : GtEntry → Option Nat
| .interp => none
| .native k => some k

/-- Observation of a frame stopped at a call-family instruction: `some none`
when the callee is interpreted, `some (some k)` when the callee is native and
the return-slot offset is `k`, and `none` when callee or argument resolution
(or the reactive instrumentation) would raise. -/
def callClass (frame : Frame) : Option (Option Nat) :=
  match mkValueStack frame with
  | .error _ => none
  | .ok vs =>
    match vs.bottom with
    | none => none
    | some f =>
      if is_c_func f = false then
        match rewrite_function f with
        | some _ => some none
        | none => none
      else
        match vs.positional_args with
        | .error _ => none
        | .ok pargs =>
          match vs.keyword_args with
          | .error _ => none
          | .ok kargs =>
            match rewrite_all (pargs ++ kargs.map Prod.snd) with
            | some _ => some (some vs.offset)
            | none => none

/-- One ground-truth transition; `none` marks an ill-formed notification. -/
def ghostStep (gt : List GtEntry) (frame : Frame) (ev : String) :
    Option (List GtEntry) :=
  if ev = "call" then
    some (.interp :: gt)
  else if ev = "return" then
    match gt with
    | .interp :: rest => some rest
    | _ => none
  else if ev = "exception" then
    match gt with
    | .native _ :: rest => some rest
    | .interp :: rest => some (.interp :: rest)
    | [] => none
  else if ev = "line" then
    match current_bytecode frame with
    | none => none
    | some bcode =>
      match gt with
      | [] => none
      | .native k :: rest =>
        if pyStartsWith bcode "CALL_FUNCTION" then
          match callClass frame with
          | some (some k2) => some (.native k2 :: rest)
          | some none => some rest
          | none => none
        else
          match frame.value_stack.get? k with
          | some _ => some rest
          | none => none
      | .interp :: _ =>
        if pyStartsWith bcode "CALL_FUNCTION" then
          match callClass frame with
          | some (some k2) => some (.native k2 :: gt)
          | some none => some gt
          | none => none
        else some gt
  else none

/-- The strict ground-truth transition: as `ghostStep`, but a sequence in
which a call-family instruction is reached while a native call is still
pending (two call instructions back to back) is rejected. -/
def ghostStepStrict (gt : List GtEntry) (frame : Frame) (ev : String) :
    Option (List GtEntry) :=
  if ev = "call" then
    some (.interp :: gt)
  else if ev = "return" then
    match gt with
    | .interp :: rest => some rest
    | _ => none
  else if ev = "exception" then
    match gt with
    | .native _ :: rest => some rest
    | .interp :: rest => some (.interp :: rest)
    | [] => none
  else if ev = "line" then
    match current_bytecode frame with
    | none => none
    | some bcode =>
      match gt with
      | [] => none
      | .native k :: rest =>
        if pyStartsWith bcode "CALL_FUNCTION" then
          none
        else
          match frame.value_stack.get? k with
          | some _ => some rest
          | none => none
      | .interp :: _ =>
        if pyStartsWith bcode "CALL_FUNCTION" then
          match callClass frame with
          | some (some k2) => some (.native k2 :: gt)
          | some none => some gt
          | none => none
        else some gt
  else none

/-- Run the ground-truth transition over a scripted notification sequence. -/
def ghostRun (gt : List GtEntry) :
    List (Frame × String) → Option (List GtEntry)
| [] => some gt
| (frame, ev) :: rest =>
  match ghostStep gt frame ev with
  | none => none
  | some gt2 => ghostRun gt2 rest

/-- Run the strict ground-truth transition over a scripted sequence. -/
def ghostRunStrict (gt : List GtEntry) :
    List (Frame × String) → Option (List GtEntry)
| [] => some gt
| (frame, ev) :: rest =>
  match ghostStepStrict gt frame ev with
  | none => none
  | some gt2 => ghostRunStrict gt2 rest

/-!
## Auxiliary observations for the claims
-/

/-- Decode a CPython line-number table: the byte offsets after offset `pos`
at which a new source line is reported to begin (offset `0` implicitly begins
the first line and is handled by `isLineStart`). -/
def lnotabLineStarts : List Nat → Nat → List Nat
| b :: l :: rest, pos =>
  let pos2 := pos + b
  if l ≠ 0 then pos2 :: lnotabLineStarts rest pos2
  else lnotabLineStarts rest pos2
| _, _ => []

/-- Whether the line-number table reports a line boundary before bytecode
offset `i`. -/
def isLineStart (lnotab : List Nat) (i : Nat) : Bool :=
  i == 0 || (lnotabLineStarts lnotab 0).contains i

mutual
/-- A code block on which the rewrite behaves as the specification describes:
at least two bytecode bytes, not yet rewritten, and the same recursively for
every nested code block of its constant pool. -/
def goodShape : Code → Bool
| .mk _ _ _ _ cod consts _ _ _ _ _ lno _ _ =>
  decide (2 ≤ cod.length) && !lnotabIsMarker lno && goodShapeConsts consts

/-- `goodShape` over a constant pool. -/
def goodShapeConsts : List Const → Bool
| [] => true
| k :: rest => goodShapeConst k && goodShapeConsts rest

/-- `goodShape` for a single constant-pool entry. -/
def goodShapeConst : Const → Bool
| .code c => goodShape c
| _ => true
end

/-!
## Concrete sample inputs
-/

/-- A frame stopped at a non-call instruction (`POP_TOP`). -/
def nonCallFrame : Frame :=
  { f_code := .mk 0 0 1 64 [1, 83] [] [] [] "s.py" "m" 1 [0, 1] [] []
    f_lasti := 0
    value_stack := [.builtin "f"] }

/-- An interpreted function whose code block is already instrumented (its
line-number table is the marker pattern). -/
def rewrittenFunc : Value :=
  .function (.mk 0 0 1 64 [100, 0, 0, 83] [] [] [] "s.py" "g" 0
    [1, 1, 1, 1, 1, 1] [] [])

/-- A fresh (not yet instrumented) interpreted function. -/
def freshFunc : Value := .function sampleCode

/-- A frame stopped at `CALL_FUNCTION 0 0` whose callee is the
already-instrumented interpreted function. -/
def frameCallRewritten : Frame :=
  { f_code := .mk 0 0 2 64 [131, 0, 0] [] [] [] "s.py" "m" 1 [0, 1] [] []
    f_lasti := 0
    value_stack := [rewrittenFunc] }

/-- A frame stopped at `CALL_FUNCTION 0 0` whose callee is the fresh
interpreted function. -/
def frameCallFresh : Frame :=
  { f_code := .mk 0 0 2 64 [131, 0, 0] [] [] [] "s.py" "m" 1 [0, 1] [] []
    f_lasti := 0
    value_stack := [freshFunc] }

/-- A frame stopped at `CALL_FUNCTION 1 0` whose callee is a native function
receiving one positional argument. -/
def frameCallNative : Frame :=
  { f_code := .mk 0 0 2 64 [131, 1, 0] [] [] [] "s.py" "m" 1 [0, 1] [] []
    f_lasti := 0
    value_stack := [.builtin "f", .int 7] }

/-- A frame stopped at `CALL_FUNCTION 0 0` whose callee is a native function
with no arguments. -/
def frameCallNative0 : Frame :=
  { f_code := .mk 0 0 1 64 [131, 0, 0] [] [] [] "s.py" "m" 1 [0, 1] [] []
    f_lasti := 0
    value_stack := [.builtin "f"] }

/-- A frame stopped at a `PRINT_ITEM` instruction; slot 0 holds the value a
just-returned native call left behind. -/
def framePrint : Frame :=
  { f_code := .mk 0 0 1 64 [71, 83] [] [] [] "s.py" "m" 1 [0, 1] [] []
    f_lasti := 0
    value_stack := [.int 42] }

/-- A frame used where the tracer ignores the frame's contents. -/
def dummyFrame : Frame :=
  { f_code := .mk 0 0 1 64 [83] [] [] [] "s.py" "m" 1 [0, 1] [] []
    f_lasti := 0
    value_stack := [] }

/-- The counterexample script for the depth invariant: enter a frame, then
execute two call instructions back to back (as compiled from `g(f())`), each
calling a native function. -/
def scriptCE : List (Frame × String) :=
  [(dummyFrame, "call"), (frameCallNative0, "line"), (frameCallNative0, "line")]

/-- A well-formed script: enter a frame, make a native call, observe its
return at the next (non-call) instruction, exit the frame. -/
def scriptOK : List (Frame × String) :=
  [(dummyFrame, "call"), (frameCallNative0, "line"), (framePrint, "line"),
   (dummyFrame, "return")]

/-- The code object `rewrite_lnotab` produces from `sampleCode`. -/
def rewrittenSampleCode : Code :=
  .mk 0 1 2 64 [100, 0, 0, 83] [.noneC] [] ["x"] "sample.py" "f" 0
    [1, 1, 1, 1, 1, 1] [] []

/-- A code object with one bytecode byte: its rewrite gets an empty
line-number table, which the marker check rejects. -/
def tinyCode : Code :=
  .mk 0 0 1 0 [83] [] [] [] "s.py" "t" 1 [3, 7] [] []

/-- A code object whose constant pool nests another code object. -/
def nestedCode : Code :=
  .mk 0 0 2 64 [100, 0, 0, 83] [.code sampleCode, .noneC] [] [] "s.py" "o" 5
    [0, 2] [] []

/-- A value-stack view used to exercise `keyword_args` overlay behaviour:
descriptor `positional-count=0`, `keyword-count=1`, `**kwargs` present, with
a duplicate key between the explicit pair and the variadic mapping. -/
def vsDouble : ValueStack :=
  { stack := [.builtin "f", .str "k", .int 1,
              .dict [(.str "k", .int 2), (.str "m", .int 3)]]
    positional_args_count := 0
    keyword_args_count := 1
    args_count := 2
    singlestar := false
    doublestar := true
    offset := 0
    args_start := 1 }

/-!
## Theorems
-/

/-- `trace` on a per-instruction notification. -/
theorem trace_on_line (st : List (Option Nat)) (fr : Frame) :
    trace st fr "line" = traceLine st fr := rfl

/-- `trace` on a frame-entry notification: push the no-pending marker. -/
theorem trace_on_call (st : List (Option Nat)) (fr : Frame) :
    trace st fr "call" = .ok ⟨none, none :: st, []⟩ := rfl

/-- `trace` on an exception notification: pop iff the top is a return-slot
marker. -/
theorem trace_on_exception (st : List (Option Nat)) (fr : Frame) :
    trace st fr "exception" =
      (match st with
       | [] => .error .indexError
       | some _ :: rest => .ok ⟨none, rest, []⟩
       | none :: _ => .ok ⟨none, st, []⟩) := rfl

/-- `trace` on a frame-exit notification: pop unconditionally. -/
theorem trace_on_return (st : List (Option Nat)) (fr : Frame) :
    trace st fr "return" =
      (match st with
       | [] => .error .indexError
       | _ :: rest => .ok ⟨none, rest, []⟩) := rfl

/-- C4: for the view over the frame with Call Descriptor positional-count=2,
keyword-count=1, variadic-positional set, variadic-keyword unset, and operand
stack `[f, p1, p2, "k", v, (p3, p4)]` (callee at slot 0), the positional
arguments are `[p1, p2, p3, p4]` and the keyword arguments are `{"k": v}`. -/
theorem C4_example_frame_args :
    (mkValueStack exampleFrame).map ValueStack.positional_args =
      .ok (.ok [.int 1, .int 2, .int 3, .int 4]) ∧
    (mkValueStack exampleFrame).map ValueStack.keyword_args =
      .ok (.ok [(.str "k", .int 5)]) :=
  ⟨rfl, rfl⟩

/-- C6 (divergence witness): constructing the view over a frame at a non-call
instruction does NOT fail silently.  `unpack_CALL_FUNCTION` returns `None`,
unpacking `None` raises `TypeError`, and the `except ValueError` clause does
not catch a `TypeError`, so the constructor raises. -/
theorem C6_noncall_construction_raises :
    unpack_CALL_FUNCTION nonCallFrame = .ok none ∧
    mkValueStack nonCallFrame = .error .typeError :=
  ⟨rfl, rfl⟩

/-- C3 (divergence witness): the rewrite is not idempotent.  The first
rewrite succeeds and produces a block satisfying the marker check, but
applying `rewrite_lnotab` to the result returns Python `None` (a bare
`return`), so a second `rewrite_function` tries to assign `None` to
`func_code` and raises instead of leaving the function on the same rewritten
block. -/
theorem C3_second_rewrite_returns_none :
    (rewrite_lnotab sampleCode).map has_been_rewritten = some true ∧
    (rewrite_lnotab sampleCode).bind rewrite_lnotab = none ∧
    (rewrite_function (.function sampleCode)).isSome = true ∧
    (rewrite_function (.function sampleCode)).bind rewrite_function = none :=
  ⟨rfl, rfl, rfl, rfl⟩

/-- C8 counterexample: `tinyCode` is not yet rewritten, but its rewrite has
an empty line-number table (`"\x01\x01" * (1 - 1)`), which the
rewritten-marker check rejects — contradicting the claim that the marker
check holds on every rewrite result. -/
theorem C8_counterexample_single_byte :
    has_been_rewritten tinyCode = false ∧
    (rewrite_lnotab tinyCode).map has_been_rewritten = some false :=
  ⟨rfl, rfl⟩

/-- C2 counterexample: a well-formed sequence — frame entry, then the two
back-to-back call instructions compiled from `g(f())`, both calling native
functions — after which the true nesting holds one interpreted frame and one
native call (depth 2) while the tracer's pending-call stack holds three
entries: the marker of the first native call is never popped. -/
theorem C2_counterexample_consecutive_calls :
    ghostRun [] scriptCE = some [.native 0, .interp] ∧
    traceRun [] scriptCE = .ok [some 0, some 0, none] :=
  ⟨rfl, rfl⟩

/-- C5: offset resolution.  For a successfully constructed view: when the
first (bottom) operand-stack slot is callable it is the callee — `bottom()`
returns it and the explicit positional slots are read starting immediately
after it; otherwise the first slot is skipped and `bottom()` returns the
second slot, with the explicit positional slots starting after that. -/
theorem C5_offset_resolution (frame : Frame) (vs : ValueStack)
    (h : mkValueStack frame = .ok vs) :
    vs.stack = get_value_stack frame ∧
    (∀ s0 rest, get_value_stack frame = s0 :: rest → pyCallable s0 = true →
       vs.offset = 0 ∧ vs.args_start = 1 ∧ vs.bottom = some s0 ∧
       vs.positional_args_from_stack = rest.take vs.positional_args_count) ∧
    (∀ s0 s1 rest, get_value_stack frame = s0 :: s1 :: rest →
       pyCallable s0 = false →
       vs.offset = 1 ∧ vs.args_start = 2 ∧ vs.bottom = some s1 ∧
       vs.positional_args_from_stack = rest.take vs.positional_args_count) := by
  unfold mkValueStack at h
  cases hu : unpack_CALL_FUNCTION frame with
  | error e => rw [hu] at h; exact absurd h (by simp)
  | ok o =>
    rw [hu] at h
    cases o with
    | none => exact absurd h (by simp)
    | some triple =>
      obtain ⟨bcode, pos, kw⟩ := triple
      cases hs : get_value_stack frame with
      | nil => rw [hs] at h; exact absurd h (by simp)
      | cons s0 rest =>
        rw [hs] at h
        simp only [Except.ok.injEq] at h
        subst h
        refine ⟨rfl, ?_, ?_⟩
        · intro t0 trest heq hc
          obtain ⟨rfl, rfl⟩ := List.cons_eq_cons.mp heq
          simp [ValueStack.bottom, ValueStack.positional_args_from_stack, hc]
        · intro t0 t1 trest heq hc
          obtain ⟨rfl, rfl⟩ := List.cons_eq_cons.mp heq
          simp [ValueStack.bottom, ValueStack.positional_args_from_stack, hc]

/-- C5 witness: both branches at concrete frames — the callable-first frame
`frameCallNative` (callee slot 0) and a frame with a leading non-callable
context value (callee slot 1). -/
theorem C5_witness :
    (∃ vs : ValueStack, mkValueStack frameCallNative = .ok vs ∧
       vs.offset = 0 ∧ vs.bottom = some (.builtin "f")) ∧
    (∃ vs : ValueStack,
       mkValueStack { frameCallNative with
                        value_stack := [.noneV, .builtin "f", .int 7] } = .ok vs ∧
       vs.offset = 1 ∧ vs.bottom = some (.builtin "f")) := by
  constructor
  · refine ⟨_, rfl, ?_⟩
    have h := C5_offset_resolution frameCallNative _ rfl
    obtain ⟨-, h1, -⟩ := h
    obtain ⟨ho, -, hb, -⟩ := h1 (.builtin "f") [.int 7] rfl rfl
    exact ⟨ho, hb⟩
  · refine ⟨_, rfl, ?_⟩
    have h := C5_offset_resolution
      { frameCallNative with value_stack := [.noneV, .builtin "f", .int 7] } _ rfl
    obtain ⟨-, -, h2⟩ := h
    obtain ⟨ho, -, hb, -⟩ := h2 .noneV (.builtin "f") [.int 7] rfl rfl
    exact ⟨ho, hb⟩

/-- A mnemonic beginning with `PRINT_` does not begin with `CALL_FUNCTION`. -/
theorem startsWith_print_not_call (s : String)
    (h : pyStartsWith s "PRINT_" = true) :
    pyStartsWith s "CALL_FUNCTION" = false := by
  have hp : ("PRINT_".toList) = ['P', 'R', 'I', 'N', 'T', '_'] := rfl
  have hc : ("CALL_FUNCTION".toList) =
      ['C', 'A', 'L', 'L', '_', 'F', 'U', 'N', 'C', 'T', 'I', 'O', 'N'] := rfl
  unfold pyStartsWith at h ⊢
  rw [hp] at h
  rw [hc]
  cases hs : s.toList with
  | nil => rw [hs] at h; simp [charsLead] at h
  | cons c cs =>
    rw [hs] at h
    simp only [charsLead, Bool.and_eq_true, beq_iff_eq] at h
    obtain ⟨rfl, -⟩ := h
    simp [charsLead]

/-- The call-instruction branch produces either a `c_call` event together
with exactly one pushed return-slot marker, or no event, an unchanged
pending-call stack and one rewritten (interpreted) callee. -/
theorem traceCallInstr_inv (st : List (Option Nat)) (frame : Frame)
    (r : TraceResult) (h : traceCallInstr st frame = .ok r) :
    (∃ f pargs kargs off rw,
       r = ⟨some (.c_call f pargs kargs), some off :: st, rw⟩) ∨
    (∃ f2, r = ⟨none, st, [f2]⟩) := by
  unfold traceCallInstr at h
  split at h
  · exact absurd h (by simp)
  rename_i vs hvs
  split at h
  · exact absurd h (by simp)
  rename_i f hf
  split at h
  · split at h
    · rename_i f2 hrw
      simp only [Except.ok.injEq] at h
      exact .inr ⟨f2, h.symm⟩
    · exact absurd h (by simp)
  · split at h
    · exact absurd h (by simp)
    rename_i pargs hp
    split at h
    · exact absurd h (by simp)
    rename_i kargs hk
    split at h
    · exact absurd h (by simp)
    rename_i rw hrw
    simp only [Except.ok.injEq] at h
    exact .inl ⟨f, pargs, kargs, vs.offset, rw, h.symm⟩

/-- C10: the tracer never reports an output statement while a native call is
pending.  A per-instruction notification at a print-family (non-call)
instruction with a pending return-slot marker is classified as a native
return and pops the marker; conversely, a `print` event is only ever emitted
when the pending-call stack top is the no-pending-native-call marker. -/
theorem C10_print_vs_pending_native :
    (∀ (st : List (Option Nat)) (off : Nat) (frame : Frame) (bcode : String)
       (v : Value),
       current_bytecode frame = some bcode →
       pyStartsWith bcode "PRINT_" = true →
       (get_value_stack frame).get? off = some v →
       trace (some off :: st) frame "line" =
         .ok ⟨some (.c_return v), st, []⟩) ∧
    (∀ (st : List (Option Nat)) (frame : Frame) (ev : String)
       (r : TraceResult),
       trace st frame ev = .ok r → r.event = some .print_stmt →
       ∃ rest, st = none :: rest) := by
  constructor
  · intro st off frame bcode v hbc hp hv
    have hnc := startsWith_print_not_call bcode hp
    rw [List.get?_eq_getElem?] at hv
    simp [trace, traceLine, hbc, hnc, hv]
  · intro st frame ev r htr hev
    unfold trace at htr
    split_ifs at htr with h1 h2 h3 h4
    · -- 'line'
      unfold traceLine at htr
      split at htr
      · exact absurd htr (by simp)
      · split at htr
        · -- call instruction: event is c_call or none, never print
          rcases traceCallInstr_inv st frame r htr with
            ⟨f, pargs, kargs, off, rw, rfl⟩ | ⟨f2, rfl⟩ <;> simp at hev
        · split at htr
          · exact absurd htr (by simp)
          · -- pending marker: c_return, never print
            split at htr
            · simp only [Except.ok.injEq] at htr
              rw [← htr] at hev
              simp at hev
            · exact absurd htr (by simp)
          · -- top is the no-pending marker: print may be emitted here
            rename_i rest
            split_ifs at htr <;>
              simp only [Except.ok.injEq] at htr <;>
              rw [← htr] at hev
            · exact ⟨_, rfl⟩
            · simp at hev
    · simp only [Except.ok.injEq] at htr; rw [← htr] at hev; simp at hev
    · split at htr
      · exact absurd htr (by simp)
      · simp only [Except.ok.injEq] at htr; rw [← htr] at hev; simp at hev
      · simp only [Except.ok.injEq] at htr; rw [← htr] at hev; simp at hev
    · split at htr
      · exact absurd htr (by simp)
      · simp only [Except.ok.injEq] at htr; rw [← htr] at hev; simp at hev
    · simp only [Except.ok.injEq] at htr; rw [← htr] at hev; simp at hev

/-- C10 witness: with a pending marker for slot 0, the `PRINT_ITEM`
notification of `framePrint` yields `c_return 42`; and the theorem's second
part applied to a concrete successful print classification. -/
theorem C10_witness :
    trace [some 0] framePrint "line" = .ok ⟨some (.c_return (.int 42)), [], []⟩ ∧
    (∃ rest, ([none] : List (Option Nat)) = none :: rest) := by
  constructor
  · exact C10_print_vs_pending_native.1 [] 0 framePrint "PRINT_ITEM" (.int 42)
      rfl rfl rfl
  · exact C10_print_vs_pending_native.2 [none] framePrint "line"
      ⟨some .print_stmt, [none], []⟩ rfl rfl

/-- C7: a native call that raises before returning.  Whenever the tracer has
just emitted a `c_call` (pushing exactly one return-slot marker), the
subsequent exception notification emits nothing and pops that marker,
returning the pending-call stack to its pre-call value — so no matching
`c_return` is ever produced for it.  Interpreted-frame markers
(`none`) are left in place by an exception notification and are popped only
by the frame-exit (`return`) notification, even while unwinding. -/
theorem C7_native_exception_closes_call (st st2 : List (Option Nat))
    (rw : List Value) (frame frame2 : Frame) (f : Value) (pargs : List Value)
    (kargs : List (Value × Value))
    (hcall : trace st frame "line" = .ok ⟨some (.c_call f pargs kargs), st2, rw⟩) :
    (∃ off, st2 = some off :: st) ∧
    trace st2 frame2 "exception" = .ok ⟨none, st, []⟩ ∧
    (∀ rest : List (Option Nat),
       trace (none :: rest) frame2 "exception" = .ok ⟨none, none :: rest, []⟩) ∧
    (∀ (x : Option Nat) (rest : List (Option Nat)),
       trace (x :: rest) frame2 "return" = .ok ⟨none, rest, []⟩) := by
  have hpush : ∃ off, st2 = some off :: st := by
    rw [trace_on_line] at hcall
    unfold traceLine at hcall
    split at hcall
    · exact absurd hcall (by simp)
    split at hcall
    · rcases traceCallInstr_inv st frame _ hcall with
        ⟨f3, pargs3, kargs3, off, rw3, heq⟩ | ⟨f2, heq⟩
      · simp only [TraceResult.mk.injEq] at heq
        exact ⟨off, heq.2.1⟩
      · simp only [TraceResult.mk.injEq] at heq
        exact absurd heq.1 (by simp)
    · split at hcall
      · exact absurd hcall (by simp)
      · split at hcall <;> simp at hcall
      · split_ifs at hcall <;> simp at hcall
  refine ⟨hpush, ?_, ?_, ?_⟩
  · obtain ⟨off, rfl⟩ := hpush
    rw [trace_on_exception]
  · intro rest
    rw [trace_on_exception]
  · intro x rest
    rw [trace_on_return]

/-- C7 witness: the concrete native call of `frameCallNative` followed by an
exception notification; the marker pushed by the `c_call` is popped and the
stack returns to its pre-call value `[]`. -/
theorem C7_witness :
    (∃ off, [some 0] = (some off :: [] : List (Option Nat))) ∧
    trace [some 0] dummyFrame "exception" = .ok ⟨none, [], []⟩ ∧
    (∀ rest : List (Option Nat),
       trace (none :: rest) dummyFrame "exception" =
         .ok ⟨none, none :: rest, []⟩) ∧
    (∀ (x : Option Nat) (rest : List (Option Nat)),
       trace (x :: rest) dummyFrame "return" = .ok ⟨none, rest, []⟩) :=
  C7_native_exception_closes_call [] [some 0] [] frameCallNative dummyFrame
    (.builtin "f") [.int 7] [] rfl

/-- C1 (amended): a per-instruction notification with the frame at a
call-family instruction.  When the callee resolved through the view is
native, and no interpreted function among the arguments is already
instrumented, `trace` returns `c_call` carrying the callee, its positional
and keyword arguments, and pushes the known return-slot offset.  When the
callee is interpreted and not already instrumented, `trace` returns no
event, rewrites the callee's code block, and pushes nothing. -/
theorem C1_call_classification (st : List (Option Nat)) (frame : Frame)
    (bcode : String) (vs : ValueStack) (f : Value)
    (hbc : current_bytecode frame = some bcode)
    (hcall : pyStartsWith bcode "CALL_FUNCTION" = true)
    (hvs : mkValueStack frame = .ok vs)
    (hf : vs.bottom = some f) :
    (∀ (pargs : List Value) (kargs : List (Value × Value)) (rw : List Value),
       is_c_func f = true →
       vs.positional_args = .ok pargs →
       vs.keyword_args = .ok kargs →
       rewrite_all (pargs ++ kargs.map Prod.snd) = some rw →
       trace st frame "line" =
         .ok ⟨some (.c_call f pargs kargs), some vs.offset :: st, rw⟩) ∧
    (∀ (c c2 : Code), f = .function c → rewrite_lnotab c = some c2 →
       trace st frame "line" = .ok ⟨none, st, [.function c2]⟩) := by
  constructor
  · intro pargs kargs rw hnat hp hk hrw
    rw [trace_on_line]
    unfold traceLine traceCallInstr
    simp [hbc, hcall, hvs, hf, hnat, hp, hk, hrw]
  · intro c c2 hfc hrewrite
    subst hfc
    rw [trace_on_line]
    unfold traceLine traceCallInstr
    simp [hbc, hcall, hvs, hf, rewrite_function, hrewrite, is_c_func]

/-- C1 counterexample (claim as stated): with an interpreted callee whose
code block is already instrumented, the reactive rewrite returns Python
`None`, assigning it to `func_code` raises `TypeError`, and `trace`
propagates the exception instead of returning no event. -/
theorem C1_counterexample_already_instrumented :
    current_bytecode frameCallRewritten = some "CALL_FUNCTION" ∧
    is_c_func rewrittenFunc = false ∧
    (mkValueStack frameCallRewritten).map ValueStack.bottom =
      .ok (some rewrittenFunc) ∧
    trace [] frameCallRewritten "line" = .error .typeError :=
  ⟨rfl, rfl, rfl, rfl⟩

/-- C1 witness: the native call of `frameCallNative` produces
`c_call(f, [7], {})` and pushes the offset-0 marker; the interpreted call of
`frameCallFresh` produces no event, leaves the pending-call stack unchanged
and rewrites the callee's code block. -/
theorem C1_witness :
    trace [] frameCallNative "line" =
      .ok ⟨some (.c_call (.builtin "f") [.int 7] []), [some 0], []⟩ ∧
    trace [] frameCallFresh "line" =
      .ok ⟨none, [], [.function rewrittenSampleCode]⟩ :=
  ⟨(C1_call_classification [] frameCallNative "CALL_FUNCTION" _ (.builtin "f")
      rfl rfl rfl rfl).1 [.int 7] [] [] rfl rfl rfl rfl,
   (C1_call_classification [] frameCallFresh "CALL_FUNCTION" _
      (.function sampleCode) rfl rfl rfl rfl).2 sampleCode rewrittenSampleCode
      rfl rfl⟩

/-- `pyEq` with a string on the left holds exactly for the equal string. -/
theorem pyEq_str_left (s : String) (b : Value) :
    pyEq (.str s) b = true ↔ b = .str s := by
  cases b <;> simp [pyEq]
  exact eq_comm

/-- `pyEq` with a string on the right holds exactly for the equal string. -/
theorem pyEq_str_right (s : String) (a : Value) :
    pyEq a (.str s) = true ↔ a = .str s := by
  cases a <;> simp [pyEq]

/-- `pyEq` is reflexive on strings. -/
theorem pyEq_str_refl (s : String) : pyEq (.str s) (.str s) = true := by
  simp [pyEq]

/-- `dictLookup` at a cons whose head key matches. -/
theorem dictLookup_cons_pos (hd : Value × Value) (d : List (Value × Value))
    (k : Value) (h : pyEq hd.1 k = true) :
    dictLookup (hd :: d) k = some hd.2 := by
  unfold dictLookup
  rw [List.find?_cons]
  simp [h]

/-- `dictLookup` at a cons whose head key does not match. -/
theorem dictLookup_cons_neg (hd : Value × Value) (d : List (Value × Value))
    (k : Value) (h : pyEq hd.1 k = false) :
    dictLookup (hd :: d) k = dictLookup d k := by
  unfold dictLookup
  rw [List.find?_cons]
  simp [h]

/-- Overwriting an existing string key: the lookup afterwards finds the new
value. -/
theorem dictLookup_map_overwrite (d : List (Value × Value)) (s : String)
    (v : Value) (h : d.any (fun p => pyEq p.1 (.str s)) = true) :
    dictLookup (d.map fun p => if pyEq p.1 (.str s) then (p.1, v) else p)
      (.str s) = some v := by
  induction d with
  | nil => simp at h
  | cons p d ih =>
    rw [List.map_cons]
    by_cases hp : pyEq p.1 (.str s) = true
    · rw [if_pos hp]
      exact dictLookup_cons_pos ⟨p.1, v⟩ _ _ hp
    · rw [if_neg hp, dictLookup_cons_neg _ _ _ (by simpa using hp)]
      apply ih
      simpa [List.any_cons, hp] using h

/-- Appending a fresh string key: the lookup afterwards finds it. -/
theorem dictLookup_append_self (d : List (Value × Value)) (s : String)
    (v : Value) :
    dictLookup (d ++ [(.str s, v)]) (.str s) =
      (dictLookup d (.str s)).getD v := by
  induction d with
  | nil =>
    rw [List.nil_append, dictLookup_cons_pos _ _ _ (pyEq_str_refl s)]
    rfl
  | cons p d ih =>
    rw [List.cons_append]
    by_cases hp : pyEq p.1 (.str s) = true
    · rw [dictLookup_cons_pos _ _ _ hp, dictLookup_cons_pos _ _ _ hp]
      rfl
    · rw [dictLookup_cons_neg _ _ _ (by simpa using hp),
        dictLookup_cons_neg _ _ _ (by simpa using hp)]
      exact ih

/-- Inserting a string key makes it the value found by `dictLookup`. -/
theorem dictLookup_insert_self (d : List (Value × Value)) (s : String)
    (v : Value) :
    dictLookup (dictInsert d (.str s) v) (.str s) = some v := by
  unfold dictInsert
  split_ifs with h
  · exact dictLookup_map_overwrite d s v h
  · rw [dictLookup_append_self]
    have hnone : dictLookup d (.str s) = none := by
      unfold dictLookup
      rw [List.find?_eq_none.mpr]
      · rfl
      · intro p hp hc
        exact h (List.any_eq_true.mpr ⟨p, hp, hc⟩)
    rw [hnone]
    rfl

/-- Overwriting a string key leaves lookups of other keys unchanged. -/
theorem dictLookup_map_other (d : List (Value × Value)) (s : String)
    (v : Value) (k : Value) (hk : pyEq (.str s) k = false) :
    dictLookup (d.map fun p => if pyEq p.1 (.str s) then (p.1, v) else p) k =
      dictLookup d k := by
  induction d with
  | nil => rfl
  | cons p d ih =>
    rw [List.map_cons]
    by_cases hp : pyEq p.1 (.str s) = true
    · have hps : p.1 = .str s := (pyEq_str_right s p.1).mp hp
      have hpk : pyEq p.1 k = false := by rw [hps]; exact hk
      rw [if_pos hp, dictLookup_cons_neg ⟨p.1, v⟩ _ _ hpk,
        dictLookup_cons_neg _ _ _ hpk]
      exact ih
    · rw [if_neg hp]
      by_cases hpk : pyEq p.1 k = true
      · rw [dictLookup_cons_pos _ _ _ hpk, dictLookup_cons_pos _ _ _ hpk]
      · rw [dictLookup_cons_neg _ _ _ (by simpa using hpk),
          dictLookup_cons_neg _ _ _ (by simpa using hpk)]
        exact ih

/-- Appending a string key leaves lookups of other keys unchanged. -/
theorem dictLookup_append_other (d : List (Value × Value)) (s : String)
    (v : Value) (k : Value) (hk : pyEq (.str s) k = false) :
    dictLookup (d ++ [(.str s, v)]) k = dictLookup d k := by
  induction d with
  | nil =>
    rw [List.nil_append, dictLookup_cons_neg _ _ _ hk]
  | cons p d ih =>
    rw [List.cons_append]
    by_cases hpk : pyEq p.1 k = true
    · rw [dictLookup_cons_pos _ _ _ hpk, dictLookup_cons_pos _ _ _ hpk]
    · rw [dictLookup_cons_neg _ _ _ (by simpa using hpk),
        dictLookup_cons_neg _ _ _ (by simpa using hpk)]
      exact ih

/-- Inserting a string key leaves lookups of other keys unchanged. -/
theorem dictLookup_insert_other (d : List (Value × Value)) (s : String)
    (v : Value) (k : Value) (hk : pyEq (.str s) k = false) :
    dictLookup (dictInsert d (.str s) v) k = dictLookup d k := by
  unfold dictInsert
  split_ifs with h
  · exact dictLookup_map_other d s v k hk
  · exact dictLookup_append_other d s v k hk

/-- Updating with a mapping whose keys are distinct strings: every lookup is
the variadic mapping's entry when present, the base mapping's otherwise. -/
theorem dictLookup_update (d e : List (Value × Value))
    (hkeys : ∀ p ∈ e, ∃ s, p.1 = Value.str s)
    (hdist : e.Pairwise fun p q => pyEq p.1 q.1 = false) (k : Value) :
    dictLookup (dictUpdate d e) k =
      (dictLookup e k).or (dictLookup d k) := by
  induction e generalizing d with
  | nil => rfl
  | cons a e ih =>
    obtain ⟨s, hs⟩ := hkeys a (List.mem_cons_self ..)
    obtain ⟨ha, hdist2⟩ := List.pairwise_cons.mp hdist
    have hstep : dictUpdate d (a :: e) = dictUpdate (dictInsert d a.1 a.2) e := by
      unfold dictUpdate
      rw [List.foldl_cons]
    rw [hstep, ih (dictInsert d a.1 a.2) (fun p hp => hkeys p (List.mem_cons_of_mem _ hp)) hdist2]
    by_cases hak : pyEq a.1 k = true
    · have hk : k = .str s := (pyEq_str_left s k).mp (hs ▸ hak)
      have he : dictLookup e k = none := by
        unfold dictLookup
        rw [List.find?_eq_none.mpr]
        · rfl
        · intro q hq hc
          obtain ⟨t, ht⟩ := hkeys q (List.mem_cons_of_mem _ hq)
          have : k = .str t := (pyEq_str_left t k).mp (ht ▸ hc)
          have hqa : q.1 = a.1 := by rw [ht, hs, ← this, hk]
          have := ha q hq
          rw [hqa] at this
          rw [hs] at this
          exact absurd (pyEq_str_refl s) (by rw [this]; simp)
      rw [he, dictLookup_cons_pos _ _ _ hak]
      rw [hs, hk, dictLookup_insert_self]
      rfl
    · have hak2 : pyEq a.1 k = false := by simpa using hak
      rw [dictLookup_cons_neg _ _ _ hak2]
      rw [hs] at hak2
      rw [hs, dictLookup_insert_other _ _ _ _ hak2]

/-- C9: with a decoded Call Descriptor, `keyword_args()` starts from the
mapping built out of the explicit key/value slots (alternating name, value)
and, when the variadic-keyword flag is set, overlays it with the variadic
keyword mapping read from the slot above the explicit arguments (one higher
when the variadic-positional flag is also set); for every name present in
the variadic mapping the variadic entry wins, all other names keep the
explicit entry. -/
theorem C9_keyword_args_overlay (vs : ValueStack) (var : List (Value × Value))
    (hds : vs.doublestar = true)
    (hvar : vs.keyword_args_from_double_star = some (.dict var))
    (hkeys : ∀ p ∈ var, ∃ s, p.1 = Value.str s)
    (hdist : var.Pairwise fun p q => pyEq p.1 q.1 = false) :
    vs.keyword_args_from_stack =
      flatlist_to_dict
        ((vs.stack.drop (vs.args_start + vs.positional_args_count)).take
          (2 * vs.keyword_args_count)) ∧
    vs.keyword_args_from_double_star =
      vs.stack_above_args (if vs.singlestar then 1 else 0) ∧
    vs.keyword_args = .ok (dictUpdate vs.keyword_args_from_stack var) ∧
    (∀ k, dictLookup (dictUpdate vs.keyword_args_from_stack var) k =
       (dictLookup var k).or (dictLookup vs.keyword_args_from_stack k)) := by
  refine ⟨rfl, ?_, ?_, ?_⟩
  · unfold ValueStack.keyword_args_from_double_star
    split_ifs <;> rfl
  · unfold ValueStack.keyword_args
    rw [hds]
    simp [hvar]
  · intro k
    exact dictLookup_update _ var hkeys hdist k

/-- C9 witness: for `vsDouble` the explicit mapping is `{"k": 1}` and the
variadic mapping `{"k": 2, "m": 3}`; the overlay keeps both names and the
variadic entry wins on the duplicate `"k"`. -/
theorem C9_witness :
    vsDouble.keyword_args = .ok [(.str "k", .int 2), (.str "m", .int 3)] ∧
    dictLookup (dictUpdate vsDouble.keyword_args_from_stack
        [(.str "k", .int 2), (.str "m", .int 3)]) (.str "k") =
      ((dictLookup [(.str "k", .int 2), (.str "m", .int 3)] (.str "k")).or
        (dictLookup vsDouble.keyword_args_from_stack (.str "k"))) := by
  have h := C9_keyword_args_overlay vsDouble
    [(.str "k", .int 2), (.str "m", .int 3)] rfl rfl
    (by
      intro p hp
      rcases List.mem_cons.mp hp with rfl | hp2
      · exact ⟨"k", rfl⟩
      rcases List.mem_cons.mp hp2 with rfl | hp3
      · exact ⟨"m", rfl⟩
      cases hp3)
    (by decide)
  exact ⟨h.2.2.1.trans (by rfl), h.2.2.2 (.str "k")⟩

/-- The constant-pool loop of `rewrite_lnotab` is a map. -/
theorem rewriteConsts_eq_map (l : List Const) :
    rewriteConsts l = l.map rewriteConst := by
  induction l with
  | nil => rfl
  | cons k rest ih => rw [rewriteConsts, List.map_cons, ih]

/-- The replacement line-number table passes the rewritten-marker check
whenever it is nonempty. -/
theorem lnotabIsMarker_replicate (m : Nat) (h : 1 ≤ m) :
    lnotabIsMarker (List.replicate (2 * m) 1) = true := by
  simp only [lnotabIsMarker, Bool.and_eq_true, Bool.not_eq_true',
    List.all_eq_true, List.length_replicate, beq_iff_eq]
  refine ⟨⟨?_, by omega⟩, ?_⟩
  · rw [List.isEmpty_eq_false_iff_exists_mem]
    exact ⟨1, List.mem_replicate.mpr ⟨by omega, rfl⟩⟩
  · intro x hx
    rw [List.eq_of_mem_replicate hx]

/-- Decoding the replacement table: a new line starts at every offset from
`p + 1` through `p + m`. -/
theorem lnotabLineStarts_replicate (m : Nat) :
    ∀ (p i : Nat),
      i ∈ lnotabLineStarts (List.replicate (2 * m) 1) p ↔ p < i ∧ i ≤ p + m := by
  induction m with
  | zero =>
    intro p i
    simp only [Nat.mul_zero, List.replicate, lnotabLineStarts, List.not_mem_nil,
      false_iff]
    omega
  | succ m ih =>
    intro p i
    have hrep : List.replicate (2 * (m + 1)) 1 =
        1 :: 1 :: List.replicate (2 * m) (1 : Nat) := by
      rw [show 2 * (m + 1) = 2 * m + 1 + 1 from by ring]
      rfl
    rw [hrep]
    simp only [lnotabLineStarts, if_pos (by omega : (1 : Nat) ≠ 0),
      List.mem_cons, ih (p + 1) i]
    omega

/-- The replacement table reports a line boundary before every instruction
byte of a block with `n ≥ 2` bytecode bytes. -/
theorem isLineStart_replicate (n i : Nat) (h2 : 2 ≤ n) (hi : i < n) :
    isLineStart (List.replicate (2 * (n - 1)) 1) i = true := by
  unfold isLineStart
  rcases Nat.eq_zero_or_pos i with rfl | hpos
  · simp
  · simp only [Bool.or_eq_true, beq_iff_eq]
    right
    exact List.elem_iff.mpr
      ((lnotabLineStarts_replicate (n - 1) 0 i).mpr ⟨hpos, by omega⟩)

/-- Unfolding `rewrite_lnotab` on a not-yet-rewritten block. -/
theorem rewrite_lnotab_not_rewritten (c : Code)
    (hm : has_been_rewritten c = false) :
    rewrite_lnotab c = some (Code.mk c.co_argcount c.co_nlocals c.co_stacksize
      c.co_flags c.co_code (rewriteConsts c.co_consts) c.co_names
      c.co_varnames c.co_filename c.co_name 0
      (List.replicate (2 * (c.co_code.length - 1)) 1) c.co_freevars
      c.co_cellvars) := by
  cases c with
  | mk a1 a2 a3 a4 cod consts a7 a8 a9 a10 a11 lno a13 a14 =>
    unfold rewrite_lnotab
    rw [if_neg (by exact fun hc => by simp [has_been_rewritten, Code.co_lnotab, hc] at hm)]
    rfl

/-- Unpacking `goodShape`. -/
theorem goodShape_spec (c : Code) (h : goodShape c = true) :
    2 ≤ c.co_code.length ∧ has_been_rewritten c = false ∧
      goodShapeConsts c.co_consts = true := by
  cases c with
  | mk a1 a2 a3 a4 cod consts a7 a8 a9 a10 a11 lno a13 a14 =>
    simp only [goodShape, Bool.and_eq_true, decide_eq_true_eq,
      Bool.not_eq_true'] at h
    exact ⟨h.1.1, h.1.2, h.2⟩

/-- Every nested code block of a `goodShape` constant pool is `goodShape`. -/
theorem goodShapeConsts_mem (l : List Const) (h : goodShapeConsts l = true)
    (d : Code) (hd : Const.code d ∈ l) : goodShape d = true := by
  induction l with
  | nil => cases hd
  | cons k rest ih =>
    rw [goodShapeConsts, Bool.and_eq_true] at h
    rcases List.mem_cons.mp hd with rfl | hd2
    · exact h.1
    · exact ih h.2 hd2

/-- C8 (amended): rewriting a block that is not yet rewritten, has at least
two bytecode bytes, and whose nested code blocks recursively satisfy the
same conditions, yields a new block whose line-number table reports a
boundary before every instruction byte (and passes the rewritten-marker
check), whose nested code constants are the recursively rewritten blocks
(themselves passing the marker check), whose non-code constants are copied
unchanged, and whose remaining fields — bytecode, names, argument count,
flags, variable names, file and function name — are copied unchanged (the
first-line number is part of the replaced line-number information). -/
theorem C8_rewrite_shape (c : Code) (h : goodShape c = true) :
    ∃ c2, rewrite_lnotab c = some c2 ∧
      c2.co_lnotab = List.replicate (2 * (c.co_code.length - 1)) 1 ∧
      (∀ i < c.co_code.length, isLineStart c2.co_lnotab i = true) ∧
      has_been_rewritten c2 = true ∧
      c2.co_code = c.co_code ∧
      c2.co_names = c.co_names ∧
      c2.co_argcount = c.co_argcount ∧
      c2.co_flags = c.co_flags ∧
      c2.co_nlocals = c.co_nlocals ∧
      c2.co_stacksize = c.co_stacksize ∧
      c2.co_varnames = c.co_varnames ∧
      c2.co_filename = c.co_filename ∧
      c2.co_name = c.co_name ∧
      c2.co_freevars = c.co_freevars ∧
      c2.co_cellvars = c.co_cellvars ∧
      c2.co_consts = c.co_consts.map rewriteConst ∧
      (∀ d, Const.code d ∈ c.co_consts →
         ∃ d2, rewriteConst (.code d) = .code d2 ∧
           rewrite_lnotab d = some d2 ∧ has_been_rewritten d2 = true ∧
           (∀ i < d.co_code.length, isLineStart d2.co_lnotab i = true)) ∧
      (∀ k ∈ c.co_consts, (∀ d, k ≠ .code d) → rewriteConst k = k) := by
  obtain ⟨h2, hm, hconsts⟩ := goodShape_spec c h
  refine ⟨_, rewrite_lnotab_not_rewritten c hm, rfl, ?_, ?_, rfl, rfl, rfl, rfl,
    rfl, rfl, rfl, rfl, rfl, rfl, rfl, rewriteConsts_eq_map c.co_consts, ?_, ?_⟩
  · intro i hi
    exact isLineStart_replicate c.co_code.length i h2 hi
  · exact lnotabIsMarker_replicate _ (by omega)
  · intro d hd
    obtain ⟨hd2, hdm, -⟩ :=
      goodShape_spec d (goodShapeConsts_mem c.co_consts hconsts d hd)
    refine ⟨_, ?_, rewrite_lnotab_not_rewritten d hdm, ?_, ?_⟩
    · rw [rewriteConst, rewrite_lnotab_not_rewritten d hdm]
    · exact lnotabIsMarker_replicate _ (by omega)
    · intro i hi
      exact isLineStart_replicate d.co_code.length i hd2 hi
  · intro k hk hnc
    cases k with
    | code d => exact absurd rfl (hnc d)
    | noneC => rfl
    | other t => rfl

/-- C8 witness: `nestedCode` (4 bytecode bytes, fresh, one nested fresh code
block and one `None` constant) satisfies the amended claim; in particular
the rewrite succeeds, the result passes the marker check, and the nested
block's rewrite does too. -/
theorem C8_witness :
    ∃ c2, rewrite_lnotab nestedCode = some c2 ∧
      has_been_rewritten c2 = true ∧
      (∀ i < 4, isLineStart c2.co_lnotab i = true) ∧
      (∃ d2, rewriteConst (.code sampleCode) = .code d2 ∧
         has_been_rewritten d2 = true) := by
  obtain ⟨c2, hsome, -, hls, hmk, -, -, -, -, -, -, -, -, -, -, -, -,
    hnested, -⟩ := C8_rewrite_shape nestedCode (by rfl)
  obtain ⟨d2, hc, -, hd2m, -⟩ :=
    hnested sampleCode (List.mem_cons_self _ _)
  exact ⟨c2, hsome, hmk, fun i hi => hls i hi, d2, hc, hd2m⟩

/-- A frame classified native by `callClass` makes the call branch emit
`c_call` and push exactly the recorded offset. -/
theorem traceCallInstr_of_callClass_native (st : List (Option Nat))
    (frame : Frame) (k : Nat) (h : callClass frame = some (some k)) :
    ∃ f pargs kargs rw,
      traceCallInstr st frame =
        .ok ⟨some (.c_call f pargs kargs), some k :: st, rw⟩ := by
  unfold callClass at h
  split at h
  · exact absurd h (by simp)
  rename_i vs hvs
  split at h
  · exact absurd h (by simp)
  rename_i f hf
  split_ifs at h with hcf
  · split at h <;> simp at h
  · split at h
    · exact absurd h (by simp)
    rename_i pargs hp
    split at h
    · exact absurd h (by simp)
    rename_i kargs hk
    split at h
    · rename_i rw hrw
      simp only [Option.some.injEq] at h
      subst h
      refine ⟨f, pargs, kargs, rw, ?_⟩
      unfold traceCallInstr
      rw [hvs]
      simp only [hf, Bool.not_eq_false] at hcf ⊢
      simp [hcf, hp, hk, hrw]
    · exact absurd h (by simp)

/-- A frame classified interpreted by `callClass` makes the call branch emit
nothing, leave the stack unchanged and rewrite the callee. -/
theorem traceCallInstr_of_callClass_interp (st : List (Option Nat))
    (frame : Frame) (h : callClass frame = some none) :
    ∃ f2, traceCallInstr st frame = .ok ⟨none, st, [f2]⟩ := by
  unfold callClass at h
  split at h
  · exact absurd h (by simp)
  rename_i vs hvs
  split at h
  · exact absurd h (by simp)
  rename_i f hf
  split_ifs at h with hcf
  · split at h
    · rename_i f2 hrw
      refine ⟨f2, ?_⟩
      unfold traceCallInstr
      rw [hvs]
      simp [hf, hcf, hrw]
    · exact absurd h (by simp)
  · split at h
    · exact absurd h (by simp)
    split at h
    · exact absurd h (by simp)
    split at h <;> simp at h

/-- `traceLine` at a call-family instruction. -/
theorem traceLine_call_branch (st : List (Option Nat)) (frame : Frame)
    (bcode : String) (hbc : current_bytecode frame = some bcode)
    (hcal : pyStartsWith bcode "CALL_FUNCTION" = true) :
    traceLine st frame = traceCallInstr st frame := by
  unfold traceLine
  simp [hbc, hcal]

/-- `traceLine` at a non-call instruction with a pending return-slot
marker. -/
theorem traceLine_return_branch (st : List (Option Nat)) (frame : Frame)
    (bcode : String) (off : Nat) (v : Value)
    (hbc : current_bytecode frame = some bcode)
    (hcal : pyStartsWith bcode "CALL_FUNCTION" = false)
    (hv : (get_value_stack frame).get? off = some v) :
    traceLine (some off :: st) frame = .ok ⟨some (.c_return v), st, []⟩ := by
  unfold traceLine
  rw [List.get?_eq_getElem?] at hv
  simp [hbc, hcal, hv]

/-- `traceLine` at a non-call instruction with no pending native call. -/
theorem traceLine_plain_branch (st : List (Option Nat)) (frame : Frame)
    (bcode : String) (hbc : current_bytecode frame = some bcode)
    (hcal : pyStartsWith bcode "CALL_FUNCTION" = false) :
    traceLine (none :: st) frame =
      (if pyStartsWith bcode "PRINT_" = true then
        .ok ⟨some .print_stmt, none :: st, []⟩
      else .ok ⟨none, none :: st, []⟩) := by
  unfold traceLine
  simp [hbc, hcal]

/-- `ghostStepStrict` on a frame-entry notification. -/
theorem ghostStepStrict_on_call (gt : List GtEntry) (fr : Frame) :
    ghostStepStrict gt fr "call" = some (.interp :: gt) := rfl

/-- `ghostStepStrict` on a frame-exit notification. -/
theorem ghostStepStrict_on_return (gt : List GtEntry) (fr : Frame) :
    ghostStepStrict gt fr "return" =
      (match gt with
       | .interp :: rest => some rest
       | _ => none) := rfl

/-- `ghostStepStrict` on an exception notification. -/
theorem ghostStepStrict_on_exception (gt : List GtEntry) (fr : Frame) :
    ghostStepStrict gt fr "exception" =
      (match gt with
       | .native _ :: rest => some rest
       | .interp :: rest => some (.interp :: rest)
       | [] => none) := rfl

/-- `ghostStepStrict` on a per-instruction notification. -/
theorem ghostStepStrict_on_line (gt : List GtEntry) (fr : Frame) :
    ghostStepStrict gt fr "line" =
      (match current_bytecode fr with
       | none => none
       | some bcode =>
         match gt with
         | [] => none
         | .native k :: rest =>
           if pyStartsWith bcode "CALL_FUNCTION" then
             none
           else
             match fr.value_stack.get? k with
             | some _ => some rest
             | none => none
         | .interp :: _ =>
           if pyStartsWith bcode "CALL_FUNCTION" then
             match callClass fr with
             | some (some k2) => some (.native k2 :: gt)
             | some none => some gt
             | none => none
           else some gt) := rfl

/-- `ghostStepStrict` on any other notification kind. -/
theorem ghostStepStrict_on_other (gt : List GtEntry) (fr : Frame)
    (ev : String) (h1 : ev ≠ "call") (h2 : ev ≠ "return")
    (h3 : ev ≠ "exception") (h4 : ev ≠ "line") :
    ghostStepStrict gt fr ev = none := by
  unfold ghostStepStrict
  rw [if_neg h1, if_neg h2, if_neg h3, if_neg h4]

/-- One step of the correspondence: on any notification the strict ground
truth accepts, the tracer succeeds and its new pending-call stack is
exactly the marker image of the new ground truth. -/
theorem trace_ghost_step (gt gt2 : List GtEntry) (frame : Frame) (ev : String)
    (h : ghostStepStrict gt frame ev = some gt2) :
    ∃ r : TraceResult, trace (gt.map GtEntry.marker) frame ev = .ok r ∧
      r.call_stack = gt2.map GtEntry.marker := by
  by_cases h1 : ev = "call"
  · subst h1
    rw [ghostStepStrict_on_call] at h
    simp only [Option.some.injEq] at h
    subst h
    exact ⟨_, trace_on_call _ frame, rfl⟩
  by_cases h2 : ev = "return"
  · subst h2
    rw [ghostStepStrict_on_return] at h
    split at h
    · simp only [Option.some.injEq] at h
      subst h
      exact ⟨_, trace_on_return _ frame, rfl⟩
    · exact absurd h (by simp)
  by_cases h3 : ev = "exception"
  · subst h3
    rw [ghostStepStrict_on_exception] at h
    split at h
    · simp only [Option.some.injEq] at h
      subst h
      exact ⟨_, trace_on_exception _ frame, rfl⟩
    · simp only [Option.some.injEq] at h
      subst h
      exact ⟨_, trace_on_exception _ frame, rfl⟩
    · exact absurd h (by simp)
  by_cases h4 : ev = "line"
  case neg => rw [ghostStepStrict_on_other gt frame ev h1 h2 h3 h4] at h; simp at h
  subst h4
  rw [ghostStepStrict_on_line] at h
  split at h
  · exact absurd h (by simp)
  rename_i bcode hbc
  split at h
  · exact absurd h (by simp)
  · -- ground-truth top is a native call: the tracer observes its return
    rename_i k rest
    by_cases hcal : pyStartsWith bcode "CALL_FUNCTION" = true
    · rw [if_pos hcal] at h
      exact absurd h (by simp)
    · rw [if_neg hcal] at h
      split at h
      · rename_i v hv
        simp only [Option.some.injEq] at h
        subst h
        rw [trace_on_line]
        simp only [List.map_cons, GtEntry.marker]
        rw [traceLine_return_branch (rest.map GtEntry.marker) frame bcode
          k v hbc (by simpa using hcal) hv]
        exact ⟨_, rfl, rfl⟩
      · exact absurd h (by simp)
  · -- ground-truth top is an interpreted frame
    rename_i rest
    by_cases hcal : pyStartsWith bcode "CALL_FUNCTION" = true
    · rw [if_pos hcal] at h
      split at h
      · rename_i k2 hcls
        simp only [Option.some.injEq] at h
        subst h
        obtain ⟨f, pargs, kargs, rw2, htc⟩ :=
          traceCallInstr_of_callClass_native
            ((GtEntry.interp :: rest).map GtEntry.marker) frame k2 hcls
        rw [trace_on_line, traceLine_call_branch _ frame bcode hbc hcal]
        exact ⟨_, htc, by simp [GtEntry.marker]⟩
      · rename_i hcls
        simp only [Option.some.injEq] at h
        subst h
        obtain ⟨f2, htc⟩ := traceCallInstr_of_callClass_interp
          ((GtEntry.interp :: rest).map GtEntry.marker) frame hcls
        rw [trace_on_line, traceLine_call_branch _ frame bcode hbc hcal]
        exact ⟨_, htc, rfl⟩
      · exact absurd h (by simp)
    · rw [if_neg hcal] at h
      simp only [Option.some.injEq] at h
      subst h
      rw [trace_on_line]
      simp only [List.map_cons, GtEntry.marker]
      rw [traceLine_plain_branch (rest.map GtEntry.marker) frame bcode hbc
        (by simpa using hcal)]
      by_cases hpr : pyStartsWith bcode "PRINT_" = true
      · rw [if_pos hpr]
        exact ⟨_, rfl, rfl⟩
      · rw [if_neg hpr]
        exact ⟨_, rfl, rfl⟩

/-- The correspondence extended over a whole scripted sequence. -/
theorem traceRun_ghost (script : List (Frame × String)) :
    ∀ gt gt2 : List GtEntry, ghostRunStrict gt script = some gt2 →
      traceRun (gt.map GtEntry.marker) script =
        .ok (gt2.map GtEntry.marker) := by
  induction script with
  | nil =>
    intro gt gt2 h
    simp only [ghostRunStrict, Option.some.injEq] at h
    subst h
    rfl
  | cons pr rest ih =>
    intro gt gt2 h
    obtain ⟨frame, ev⟩ := pr
    unfold ghostRunStrict at h
    split at h
    · exact absurd h (by simp)
    rename_i gt1 hstep
    obtain ⟨r, htr, hst⟩ := trace_ghost_step gt gt1 frame ev hstep
    unfold traceRun
    simp only [htr]
    rw [hst]
    exact ih gt1 gt2 h

/-- Splitting a successful strict ghost run at any point. -/
theorem ghostRun_append (l1 l2 : List (Frame × String)) :
    ∀ gt gt2 : List GtEntry, ghostRunStrict gt (l1 ++ l2) = some gt2 →
      ∃ gt1, ghostRunStrict gt l1 = some gt1 ∧
        ghostRunStrict gt1 l2 = some gt2 := by
  induction l1 with
  | nil => exact fun gt gt2 h => ⟨gt, rfl, h⟩
  | cons pr rest ih =>
    intro gt gt2 h
    obtain ⟨frame, ev⟩ := pr
    rw [List.cons_append] at h
    unfold ghostRunStrict at h
    split at h
    · exact absurd h (by simp)
    rename_i gt1 hstep
    obtain ⟨gtm, hg1, hg2⟩ := ih gt1 gt2 h
    refine ⟨gtm, ?_, hg2⟩
    unfold ghostRunStrict
    simp only [hstep]
    exact hg1

/-- C2 (amended): for every well-formed notification sequence started from an
empty pending-call stack in which no call-family instruction is reached while
a native call is still pending, after each notification the tracer has
succeeded (in particular it never pops an empty stack), its pending-call
stack is exactly the marker image of the true call nesting, and its depth
equals the number of open interpreted frames plus the number of native calls
in progress. -/
theorem C2_pending_stack_invariant (script : List (Frame × String))
    (gtF : List GtEntry) (h : ghostRunStrict [] script = some gtF) :
    ∀ i : Nat, ∃ gti : List GtEntry,
      ghostRunStrict [] (script.take i) = some gti ∧
      traceRun [] (script.take i) = .ok (gti.map GtEntry.marker) ∧
      (gti.map GtEntry.marker).length = gti.length := by
  intro i
  have hsplit : script.take i ++ script.drop i = script :=
    List.take_append_drop i script
  rw [← hsplit] at h
  obtain ⟨gti, h1, -⟩ := ghostRun_append (script.take i) (script.drop i) [] gtF h
  exact ⟨gti, h1, traceRun_ghost (script.take i) [] gti h1, by simp⟩

/-- C2 witness: the four-notification script `scriptOK` (frame entry, native
call, native return observed at a print instruction, frame exit) is
well-formed; after all four notifications the tracer's pending-call stack is
the marker image of the (empty) true nesting. -/
theorem C2_witness :
    ∃ gti : List GtEntry,
      ghostRunStrict [] (scriptOK.take 4) = some gti ∧
      traceRun [] (scriptOK.take 4) = .ok (gti.map GtEntry.marker) ∧
      (gti.map GtEntry.marker).length = gti.length :=
  C2_pending_stack_invariant scriptOK [] rfl 4

end BytecodeHack
